import Mathlib

/-
  Verification of the Muehle (Nine Mens Morris) rules engine.

  Shallow embedding of src/positions.py, src/board.py and src/rules.py.
  The board is a mapping from positions to optional colors; the rules
  engine is a record of phase, pending-removal, last-mover and the two
  placement counters, updated by an event handler that reads the board
  state as it is after the mutation that raised the event.
-/

namespace Muehle

/-- Colors of the two players, from board.py (Color enum). -/
inductive Color
  | WHITE
  | BLACK
deriving DecidableEq

/-- Game phases, from rules.py (Phase enum: SET, MOVE, END). -/
inductive Phase
  | SET
  | MOVE
  | END
deriving DecidableEq

/-- Next actions, from rules.py (NextAction enum). -/
inductive NextAction
  | SET
  | MOVE
  | REMOVE
  | RESET
deriving DecidableEq

/-- Opposite color, as computed inline in rules.py
    (Color.BLACK if color == Color.WHITE else Color.WHITE). -/
def oppositeColor : Color → Color
  | Color.WHITE => Color.BLACK
  | Color.BLACK => Color.WHITE

/-- Neighbor record of a position, from positions.py (class Directions).
    The constructor argument order in the source is (left, right, up, down). -/
structure Directions where
  left : Option Nat
  right : Option Nat
  up : Option Nat
  down : Option Nat
deriving DecidableEq

/-- Directions.has_neighbor from positions.py: the given position is one of
    the four neighbor slots. -/
def Directions.hasNeighbor (d : Directions) (position : Nat) : Bool :=
  d.right == some position || d.left == some position
    || d.up == some position || d.down == some position

/-- The static neighbor table from positions.py (dict positions), keyed by
    position number 0..23; entries are (left, right, up, down). -/
def positions (p : Nat) : Option Directions :=
  if p = 0 then some ⟨none, some 1, none, some 9⟩
  else if p = 1 then some ⟨some 0, some 2, none, some 4⟩
  else if p = 2 then some ⟨some 1, none, none, some 14⟩
  else if p = 3 then some ⟨some 4, none, none, some 10⟩
  else if p = 4 then some ⟨some 3, some 5, some 1, some 7⟩
  else if p = 5 then some ⟨some 4, none, none, some 13⟩
  else if p = 6 then some ⟨none, some 7, none, some 11⟩
  else if p = 7 then some ⟨some 6, some 8, some 4, none⟩
  else if p = 8 then some ⟨some 7, none, none, some 12⟩
  else if p = 9 then some ⟨none, some 10, some 0, some 21⟩
  else if p = 10 then some ⟨some 9, some 11, some 3, some 18⟩
  else if p = 11 then some ⟨some 10, none, some 6, some 15⟩
  else if p = 12 then some ⟨none, some 13, some 8, some 17⟩
  else if p = 13 then some ⟨some 12, some 14, some 5, some 20⟩
  else if p = 14 then some ⟨some 13, none, some 2, some 23⟩
  else if p = 15 then some ⟨none, some 16, some 11, none⟩
  else if p = 16 then some ⟨some 15, some 17, none, some 19⟩
  else if p = 17 then some ⟨some 16, none, some 12, none⟩
  else if p = 18 then some ⟨none, some 19, some 10, none⟩
  else if p = 19 then some ⟨some 18, some 20, some 16, some 22⟩
  else if p = 20 then some ⟨some 19, none, some 13, none⟩
  else if p = 21 then some ⟨none, some 22, some 9, none⟩
  else if p = 22 then some ⟨some 21, some 23, some 19, none⟩
  else if p = 23 then some ⟨some 22, none, some 14, none⟩
  else none

/-- Board occupancy: the stones dict of MillGameBoard, as a total map from
    position numbers to optional colors (valid keys are 0..23). -/
def BoardState : Type := Nat → Option Color

/-- MillGameBoard.get_stone_col: color at a position; positions outside the
    24 valid identifiers are rejected by the source (ValueError), modelled
    as none here since the rules engine only queries valid positions. -/
def get_stone_col (b : BoardState) (position : Nat) : Option Color :=
  if position < 24 then b position else none

/-- MillRules._count_stones: number of stones of the given color on the
    board (the stones dict only ever holds the 24 valid positions). -/
def count_stones (b : BoardState) (c : Color) : Nat :=
  (List.range 24).countP (fun p => b p == some c)

/-- The mutable state of MillRules: phase, pending-removal victim, color of
    the last mover and the two counters of stones placed during setting. -/
structure RulesState where
  phase : Phase
  waitingForStoneRemovalCol : Option Color
  lastMoveCol : Option Color
  whiteStonesSet : Nat
  blackStonesSet : Nat
deriving DecidableEq

/-- The state of a freshly constructed MillRules engine. -/
def initRules : RulesState :=
  ⟨Phase.SET, none, none, 0, 0⟩

/-- MillRules.is_turn_col: if a removal is pending the non-victim acts;
    otherwise WHITE acts first, and after that the color that did not
    make the last move. -/
def is_turn_col (rs : RulesState) (color : Color) : Bool :=
  match rs.waitingForStoneRemovalCol with
  | some victim => color != victim
  | none =>
    match rs.lastMoveCol with
    | none => color == Color.WHITE
    | some lastCol => color != lastCol

/-- MillRules.can_place: setting phase, the position is free and it is the
    turn of the given color. -/
def can_place (rs : RulesState) (b : BoardState) (position : Nat) (color : Color) : Bool :=
  rs.phase == Phase.SET && get_stone_col b position == none && is_turn_col rs color

/-- MillRules.get_next_action, derived from phase and the pending-removal
    state exactly as in the source. -/
def get_next_action (rs : RulesState) : NextAction :=
  match rs.phase with
  | Phase.SET =>
    if rs.waitingForStoneRemovalCol ≠ none then NextAction.REMOVE else NextAction.SET
  | Phase.MOVE =>
    if rs.waitingForStoneRemovalCol ≠ none then NextAction.REMOVE else NextAction.MOVE
  | Phase.END => NextAction.RESET

/-- MillRules._check_horizontal_mill: both the left and the right neighbor
    of the given directions record exist and carry the given color. -/
def check_horizontal_mill (b : BoardState) (color : Color) (d : Directions) : Bool :=
  (match d.left with
   | some l => get_stone_col b l == some color
   | none => false)
  && (match d.right with
      | some r => get_stone_col b r == some color
      | none => false)

/-- MillRules._check_vertical_mill: both the up and the down neighbor of the
    given directions record exist and carry the given color. -/
def check_vertical_mill (b : BoardState) (color : Color) (d : Directions) : Bool :=
  (match d.up with
   | some u => get_stone_col b u == some color
   | none => false)
  && (match d.down with
      | some dn => get_stone_col b dn == some color
      | none => false)

/-- MillRules._check_mill as a predicate: true iff any of the five checks of
    the source (at the position, one field left, right, up, down) fires; the
    source then stores the opposing color as pending-removal victim. -/
def check_mill (b : BoardState) (color : Color) (position : Nat) : Bool :=
  match positions position with
  | none => false
  | some d =>
    (check_horizontal_mill b color d || check_vertical_mill b color d)
    || (match d.left with
        | some l =>
          get_stone_col b l == some color
            && (match positions l with
                | some dl => check_horizontal_mill b color dl
                | none => false)
        | none => false)
    || (match d.right with
        | some r =>
          get_stone_col b r == some color
            && (match positions r with
                | some dr => check_horizontal_mill b color dr
                | none => false)
        | none => false)
    || (match d.up with
        | some u =>
          get_stone_col b u == some color
            && (match positions u with
                | some du => check_vertical_mill b color du
                | none => false)
        | none => false)
    || (match d.down with
        | some dn =>
          get_stone_col b dn == some color
            && (match positions dn with
                | some dd => check_vertical_mill b color dd
                | none => false)
        | none => false)

/-- MillRules._move_valid: the source position is a known position and the
    mover either has at most 3 stones on the board (flying) or the target is
    a direct neighbor. -/
def move_valid (b : BoardState) (from_pos to_pos : Nat) (color : Color) : Bool :=
  match positions from_pos with
  | none => false
  | some d => decide (count_stones b color ≤ 3) || d.hasNeighbor to_pos

/-- MillRules.may_move: no removal pending, the source position carries a
    stone of the color whose turn it is, the target is free, and the move is
    valid per move_valid. -/
def may_move (rs : RulesState) (b : BoardState) (from_pos to_pos : Nat) : Bool :=
  match get_stone_col b from_pos with
  | none => false
  | some from_col =>
    rs.waitingForStoneRemovalCol == none && is_turn_col rs from_col
      && get_stone_col b to_pos == none && move_valid b from_pos to_pos from_col

/-- MillRules.may_remove: a removal is pending and the stone at the position
    carries the victim color. -/
def may_remove (rs : RulesState) (b : BoardState) (position : Nat) : Bool :=
  match rs.waitingForStoneRemovalCol with
  | some victim => get_stone_col b position == some victim
  | none => false

/-- MillRules._advance_phase: SET to MOVE, MOVE to END, END unchanged. -/
def advance_phase : Phase → Phase
  | Phase.SET => Phase.MOVE
  | Phase.MOVE => Phase.END
  | Phase.END => Phase.END

/-- Board events raised by MillGameBoard (Event enum plus the event data
    dictionaries passed to the handlers). -/
inductive BEvent
  | stoneSet (color : Color) (position : Nat)
  | stoneRemoved (color : Color) (position : Nat)
  | stoneMoved (color : Color) (from_pos to_pos : Nat)
  | reset
deriving DecidableEq

/-- MillRules._board_event_handler: the board argument is the board state
    after the mutation that raised the event (the board mutates first and
    then notifies its listeners synchronously). The stone counts are read at
    handler entry, exactly as in the source. -/
def board_event_handler (rs : RulesState) (b : BoardState) (e : BEvent) : RulesState :=
  let black_stones := count_stones b Color.BLACK
  let white_stones := count_stones b Color.WHITE
  match e with
  | BEvent.stoneSet color position =>
    let rs1 : RulesState :=
      if color = Color.WHITE then
        { rs with lastMoveCol := some color, whiteStonesSet := rs.whiteStonesSet + 1 }
      else
        { rs with lastMoveCol := some color, blackStonesSet := rs.blackStonesSet + 1 }
    let rs2 : RulesState :=
      if check_mill b color position then
        { rs1 with waitingForStoneRemovalCol := some (oppositeColor color) }
      else rs1
    if 9 ≤ rs2.whiteStonesSet ∧ 9 ≤ rs2.blackStonesSet then
      { rs2 with phase := advance_phase rs2.phase }
    else rs2
  | BEvent.stoneRemoved _ _ =>
    let rs1 : RulesState := { rs with waitingForStoneRemovalCol := none }
    if (rs1.phase = Phase.MOVE ∧ black_stones ≤ 2) ∨ white_stones ≤ 2 then
      { rs1 with phase := advance_phase rs1.phase }
    else rs1
  | BEvent.stoneMoved color _ to_pos =>
    let rs1 : RulesState := { rs with lastMoveCol := some color }
    if check_mill b color to_pos then
      { rs1 with waitingForStoneRemovalCol := some (oppositeColor color) }
    else rs1
  | BEvent.reset => initRules

/-- Errors raised by the board mutations of MillGameBoard: a ValueError for
    a position that is not one of the 24 valid crossings. -/
inductive BoardError
  | invalidPosition
deriving DecidableEq

/-- Insertion into the stones dict: self.stones[position] = color. -/
def set_stone (b : BoardState) (position : Nat) (color : Color) : BoardState :=
  fun q => if q = position then some color else b q

/-- Deletion from the stones dict: del self.stones[position]. -/
def del_stone (b : BoardState) (position : Nat) : BoardState :=
  fun q => if q = position then none else b q

/-- The empty stones dict of a freshly constructed board. -/
def empty_board : BoardState := fun _ => none

/-- MillGameBoard.place_stone: on a valid position the stone is stored
    (overwriting whatever was there) and a STONE_SET event is emitted; an
    invalid position raises a ValueError. -/
def place_stone (b : BoardState) (position : Nat) (color : Color) :
    Except BoardError (BoardState × BEvent) :=
  if position < 24 then
    Except.ok (set_stone b position color, BEvent.stoneSet color position)
  else
    Except.error BoardError.invalidPosition

/-- MillGameBoard.remove_stone: on a valid occupied position the stone is
    deleted and a STONE_REMOVED event is emitted; on a valid empty position
    nothing happens and no event is emitted; an invalid position raises a
    ValueError. -/
def remove_stone (b : BoardState) (position : Nat) :
    Except BoardError (BoardState × Option BEvent) :=
  if position < 24 then
    match b position with
    | some color =>
      Except.ok (del_stone b position, some (BEvent.stoneRemoved color position))
    | none => Except.ok (b, none)
  else
    Except.error BoardError.invalidPosition

/-- Combined state of the board and the rules engine registered on it. -/
structure Sys where
  board : BoardState
  rules : RulesState

/-- Board mutations available to callers of MillGameBoard. -/
inductive BOp
  | place (position : Nat) (color : Color)
  | remove (position : Nat)
  | move (from_pos to_pos : Nat)
  | clear
deriving DecidableEq

/-- One board mutation followed by the synchronous event dispatch to the
    rules engine, per board.py: the stones dict is mutated first and the
    handler then observes the post-mutation board. Mutations the board
    rejects or ignores (invalid position, removing or moving from an empty
    position) leave the system unchanged. -/
def sys_step (s : Sys) (op : BOp) : Sys :=
  match op with
  | BOp.place position color =>
    if position < 24 then
      let b := set_stone s.board position color
      ⟨b, board_event_handler s.rules b (BEvent.stoneSet color position)⟩
    else s
  | BOp.remove position =>
    if position < 24 then
      match s.board position with
      | some color =>
        let b := del_stone s.board position
        ⟨b, board_event_handler s.rules b (BEvent.stoneRemoved color position)⟩
      | none => s
    else s
  | BOp.move from_pos to_pos =>
    if from_pos < 24 ∧ to_pos < 24 then
      match s.board from_pos with
      | some color =>
        let b := set_stone (del_stone s.board from_pos) to_pos color
        ⟨b, board_event_handler s.rules b (BEvent.stoneMoved color from_pos to_pos)⟩
      | none => s
    else s
  | BOp.clear => ⟨empty_board, board_event_handler s.rules empty_board BEvent.reset⟩

/-- The initial system: empty board, fresh rules engine. -/
def init_sys : Sys := ⟨empty_board, initRules⟩

/-- Run a list of board mutations from the initial system; the states so
    produced are the reachable states of the engine. -/
def run_ops (ops : List BOp) : Sys := ops.foldl sys_step init_sys

/-- The 16 straight three-position lines of the board, written down from the
    description of the topology in the specification (eight horizontal rows
    and eight vertical columns); reference definition for the refinement
    claim about mill detection. -/
def millLinesSpec : List (Nat × Nat × Nat) :=
  [(0, 1, 2), (3, 4, 5), (6, 7, 8), (9, 10, 11),
   (12, 13, 14), (15, 16, 17), (18, 19, 20), (21, 22, 23),
   (0, 9, 21), (1, 4, 7), (2, 14, 23), (3, 10, 18),
   (5, 13, 20), (6, 11, 15), (8, 12, 17), (16, 19, 22)]

/-- Line-based reference mill detection, following the words of the
    specification: some mill line containing the position has all three of
    its positions occupied by the given color. -/
def line_mill_spec (b : BoardState) (color : Color) (position : Nat) : Bool :=
  millLinesSpec.any (fun t =>
    (t.1 == position || t.2.1 == position || t.2.2 == position)
      && get_stone_col b t.1 == some color
      && get_stone_col b t.2.1 == some color
      && get_stone_col b t.2.2 == some color)

/-- Symmetric neighbor relation query drawn from the positions table, as
    used by move validation: has_neighbor on the directions of p. -/
def neighbor_rel (p q : Nat) : Bool :=
  match positions p with
  | some d => d.hasNeighbor q
  | none => false

/-- Event trace reaching a mill for WHITE on the line 0, 1, 2 during the
    setting phase: WHITE places 0, 1, 2 while BLACK places 3 and 5. -/
def mill_trace : List BOp :=
  [BOp.place 0 Color.WHITE, BOp.place 3 Color.BLACK, BOp.place 1 Color.WHITE,
   BOp.place 5 Color.BLACK, BOp.place 2 Color.WHITE]

/-- Event trace where BLACK places a stone and it is removed again: after
    the removal both live counts are 0, so the finish check fires with the
    engine still in the setting phase. -/
def remove_in_set_trace : List BOp :=
  [BOp.place 0 Color.BLACK, BOp.remove 0]

/-- Event trace driving the engine into the END phase (two removals, each
    leaving WHITE with at most 2 live stones, advance the phase twice) and
    then forming a BLACK mill on the line 0, 1, 2, so that a removal becomes
    pending while the phase is END. -/
def end_phase_mill_trace : List BOp :=
  [BOp.place 0 Color.BLACK, BOp.remove 0, BOp.place 0 Color.BLACK, BOp.remove 0,
   BOp.place 0 Color.BLACK, BOp.place 1 Color.BLACK, BOp.place 2 Color.BLACK]

/-- Event trace of the scenario in the specification: WHITE places 0, BLACK
    places 1, WHITE places 2. The line 0, 1, 2 then holds a BLACK stone at
    position 1, so no mill forms. -/
def spec_scenario_trace : List BOp :=
  [BOp.place 0 Color.WHITE, BOp.place 1 Color.BLACK, BOp.place 2 Color.WHITE]

/-- Claim C7: in every state of the rules engine exactly one color may act:
    is_turn_col answers oppositely for a color and its opposite, so the two
    answers are never both true and never both false. -/
theorem c7_turn_exclusive : ∀ (rs : RulesState) (c : Color),
    is_turn_col rs c = !(is_turn_col rs (oppositeColor c)) := by
  intro rs c
  obtain ⟨ph, w, l, ws, bs⟩ := rs
  rcases w with _ | v
  · rcases l with _ | lc
    · cases c <;> rfl
    · cases c <;> cases lc <;> rfl
  · cases c <;> cases v <;> rfl

/-- Claim C8: a reset event puts the whole system back into its initial
    state: the board is cleared and the rules engine is exactly the fresh
    engine, whose phase is SET, with no pending removal, zero placement
    counters and WHITE to act; every query on the resulting system therefore
    answers as on a freshly constructed one. -/
theorem c8_reset_roundtrip : ∀ (s : Sys),
    sys_step s BOp.clear = init_sys
    ∧ init_sys.rules.phase = Phase.SET
    ∧ init_sys.rules.waitingForStoneRemovalCol = none
    ∧ init_sys.rules.whiteStonesSet = 0
    ∧ init_sys.rules.blackStonesSet = 0
    ∧ is_turn_col init_sys.rules Color.WHITE = true := by
  intro s
  exact ⟨rfl, rfl, rfl, rfl, rfl, rfl⟩

/-- Claim C10: the neighbor relation of the static positions table is
    symmetric: q is a neighbor of p exactly when p is a neighbor of q, for
    all positions in 0..23. -/
theorem c10_neighbor_symm : ∀ p q : Fin 24,
    neighbor_rel p.val q.val = neighbor_rel q.val p.val := by decide

/-- Claim C1 counterexample: it is not the case that every STONE_REMOVED
    event whose post-removal board has a color with at most 2 live stones
    drives the phase to END. In the reachable state reached by placing a
    BLACK stone and removing it again, both live counts are 0, yet the
    resulting phase is MOVE (the finish check advances the phase only one
    step, from SET to MOVE, and its precedence is asymmetric). -/
theorem c1_counterexample :
    ¬ (∀ (rs : RulesState) (b : BoardState) (c : Color) (p : Nat),
        (count_stones b Color.WHITE ≤ 2 ∨ count_stones b Color.BLACK ≤ 2) →
        (board_event_handler rs b (BEvent.stoneRemoved c p)).phase = Phase.END)
    ∧ (run_ops remove_in_set_trace).rules.phase = Phase.MOVE
    ∧ count_stones (run_ops remove_in_set_trace).board Color.WHITE = 0 := by
  refine ⟨fun h => ?_, by decide, by decide⟩
  exact absurd
    (h (run_ops [BOp.place 0 Color.BLACK]).rules (run_ops remove_in_set_trace).board
      Color.BLACK 0 (Or.inl (by decide)))
    (by decide)

/-- Claim C1 (amended): on a STONE_REMOVED event the engine clears the
    pending-removal victim, and it advances the phase one step (SET to MOVE,
    MOVE to END) exactly when the post-removal WHITE live count is at most 2
    (in any phase) or the BLACK live count is at most 2 while the phase is
    MOVE; otherwise the phase is unchanged. The rule is asymmetric between
    the colors and from the SET phase it yields MOVE, not END. -/
theorem c1_stone_removed_amended (rs : RulesState) (b : BoardState) (c : Color) (p : Nat) :
    (board_event_handler rs b (BEvent.stoneRemoved c p)).waitingForStoneRemovalCol = none
    ∧ (count_stones b Color.WHITE ≤ 2 →
        (board_event_handler rs b (BEvent.stoneRemoved c p)).phase = advance_phase rs.phase)
    ∧ (rs.phase = Phase.MOVE → count_stones b Color.BLACK ≤ 2 →
        (board_event_handler rs b (BEvent.stoneRemoved c p)).phase = Phase.END)
    ∧ (2 < count_stones b Color.WHITE →
        ¬(rs.phase = Phase.MOVE ∧ count_stones b Color.BLACK ≤ 2) →
        (board_event_handler rs b (BEvent.stoneRemoved c p)).phase = rs.phase) := by
  obtain ⟨ph, w, l, ws, bs⟩ := rs
  simp only [board_event_handler]
  split_ifs with h
  · refine ⟨rfl, fun _ => rfl, fun hph hbl => ?_, fun hwh hnot => ?_⟩
    · simp only [hph, advance_phase]
    · rcases h with h1 | h2
      · exact absurd h1 (by simpa using hnot)
      · omega
  · refine ⟨rfl, fun hwh => ?_, fun hph hbl => ?_, fun _ _ => rfl⟩
    · exact absurd (Or.inr hwh) h
    · exact absurd (Or.inl ⟨hph, hbl⟩) h

/-- Witness for the amended claim C1: a STONE_REMOVED event on the fresh
    engine with an empty board clears the victim and, since WHITE has 0 live
    stones, advances the phase from SET to MOVE. -/
theorem c1_amended_witness :
    (board_event_handler initRules empty_board
        (BEvent.stoneRemoved Color.BLACK 0)).waitingForStoneRemovalCol = none
    ∧ (board_event_handler initRules empty_board
        (BEvent.stoneRemoved Color.BLACK 0)).phase = Phase.MOVE := by
  obtain ⟨h1, h2, _, _⟩ := c1_stone_removed_amended initRules empty_board Color.BLACK 0
  exact ⟨h1, (h2 (by decide)).trans (by decide)⟩

/-- Claim C2 counterexample: can_place does not consult the pending-removal
    state. In the reachable state after the mill trace, the victim is BLACK,
    the phase is still SET, position 6 is free, and can_place answers true
    for WHITE even though a removal is pending. -/
theorem c2_counterexample :
    ¬ (∀ (ops : List BOp) (p : Nat) (c : Color),
        (run_ops ops).rules.waitingForStoneRemovalCol ≠ none →
        can_place (run_ops ops).rules (run_ops ops).board p c = false)
    ∧ (run_ops mill_trace).rules.waitingForStoneRemovalCol = some Color.BLACK
    ∧ can_place (run_ops mill_trace).rules (run_ops mill_trace).board 6 Color.WHITE = true := by
  refine ⟨fun h => ?_, by decide, by decide⟩
  exact absurd (h mill_trace 6 Color.WHITE (by decide)) (by decide)

/-- Claim C2 (amended): while a removal is pending no move is accepted:
    may_move is false for every pair of positions; placements are not
    guarded, however, and can_place may still answer true in the SET phase
    while a removal is pending. -/
theorem c2_pending_blocks_moves (rs : RulesState) (b : BoardState) (f t : Nat)
    (h : rs.waitingForStoneRemovalCol ≠ none) :
    may_move rs b f t = false := by
  rcases hw : rs.waitingForStoneRemovalCol with _ | v
  · exact absurd hw h
  · unfold may_move
    cases hc : get_stone_col b f
    · rfl
    · simp [hw]

/-- Witness for the amended claim C2: a concrete pending-removal state in
    which may_move answers false. -/
theorem c2_amended_witness :
    may_move ⟨Phase.MOVE, some Color.BLACK, some Color.WHITE, 9, 9⟩ empty_board 0 1 = false :=
  c2_pending_blocks_moves ⟨Phase.MOVE, some Color.BLACK, some Color.WHITE, 9, 9⟩
    empty_board 0 1 (by decide)

/-- Claim C3 counterexample: get_next_action does not answer REMOVE in every
    state with a pending removal. The end-phase mill trace reaches a state
    whose phase is END with victim WHITE pending, and there get_next_action
    answers RESET, not REMOVE. -/
theorem c3_counterexample :
    ¬ (∀ rs : RulesState, rs.waitingForStoneRemovalCol ≠ none →
        get_next_action rs = NextAction.REMOVE)
    ∧ (run_ops end_phase_mill_trace).rules.waitingForStoneRemovalCol = some Color.WHITE
    ∧ (run_ops end_phase_mill_trace).rules.phase = Phase.END
    ∧ get_next_action (run_ops end_phase_mill_trace).rules = NextAction.RESET := by
  refine ⟨fun h => ?_, by decide, by decide, by decide⟩
  exact absurd (h (run_ops end_phase_mill_trace).rules (by decide)) (by decide)

/-- Claim C3 (amended): get_next_action answers REMOVE when a removal is
    pending and the phase is SET or MOVE; in the END phase it answers RESET
    regardless of the pending-removal state; otherwise it answers SET in the
    SET phase and MOVE in the MOVE phase. -/
theorem c3_next_action_amended (rs : RulesState) :
    (rs.phase ≠ Phase.END → rs.waitingForStoneRemovalCol ≠ none →
        get_next_action rs = NextAction.REMOVE)
    ∧ (rs.phase = Phase.SET → rs.waitingForStoneRemovalCol = none →
        get_next_action rs = NextAction.SET)
    ∧ (rs.phase = Phase.MOVE → rs.waitingForStoneRemovalCol = none →
        get_next_action rs = NextAction.MOVE)
    ∧ (rs.phase = Phase.END → get_next_action rs = NextAction.RESET) := by
  obtain ⟨ph, w, l, ws, bs⟩ := rs
  cases ph <;> rcases w with _ | v <;> simp [get_next_action]

/-- Witness for the amended claim C3: a SET-phase state with pending victim
    BLACK, where the next action is REMOVE. -/
theorem c3_amended_witness :
    get_next_action ⟨Phase.SET, some Color.BLACK, none, 0, 0⟩ = NextAction.REMOVE :=
  (c3_next_action_amended ⟨Phase.SET, some Color.BLACK, none, 0, 0⟩).1
    (by decide) (by decide)

/-- Every valid position has an entry in the positions table. -/
theorem positions_isSome_of_lt (p : Nat) (hp : p < 24) : ∃ d, positions p = some d := by
  interval_cases p <;> exact ⟨_, rfl⟩

/-- Claim C4: with no removal pending, the source position occupied by the
    color whose turn it is and the target position free, a mover with more
    than 3 live stones may move exactly to a neighbor of the source
    position, and a mover with at most 3 live stones may move to any free
    position; the threshold is read off the live stone count on every
    query. -/
theorem c4_move_rule (rs : RulesState) (b : BoardState) (f t : Nat) (c : Color)
    (hf : f < 24)
    (hw : rs.waitingForStoneRemovalCol = none)
    (hfc : get_stone_col b f = some c)
    (hturn : is_turn_col rs c = true)
    (htc : get_stone_col b t = none) :
    (count_stones b c ≤ 3 → may_move rs b f t = true)
    ∧ (3 < count_stones b c →
        (may_move rs b f t = true ↔ neighbor_rel f t = true)) := by
  obtain ⟨d, hd⟩ := positions_isSome_of_lt f hf
  constructor
  · intro h3
    simp [may_move, hfc, hw, hturn, htc, move_valid, hd, h3]
  · intro h3
    have hdec : decide (count_stones b c ≤ 3) = false := by
      simp only [decide_eq_false_iff_not]
      omega
    simp [may_move, hfc, hw, hturn, htc, move_valid, neighbor_rel, hd, hdec]

/-- Board with a single WHITE stone at position 0, used as witness input. -/
def single_white_board : BoardState :=
  fun p => if p = 0 then some Color.WHITE else none

/-- Witness for claim C4: WHITE has one stone (flying), so a move from 0 to
    the non-adjacent free position 5 is accepted. -/
theorem c4_witness :
    may_move ⟨Phase.MOVE, none, some Color.BLACK, 9, 9⟩ single_white_board 0 5 = true :=
  (c4_move_rule ⟨Phase.MOVE, none, some Color.BLACK, 9, 9⟩ single_white_board 0 5
    Color.WHITE (by decide) rfl (by decide) (by decide) (by decide)).1 (by decide)

/-- Claim C6 counterexample: the board mutations do not reject an occupied
    target or an empty source. Placing BLACK on position 0 that already
    holds a WHITE stone succeeds, overwrites the stone and emits STONE_SET;
    removing from the empty position 1 succeeds silently, emitting no event;
    neither fails with an error condition. -/
theorem c6_counterexample :
    place_stone (set_stone empty_board 0 Color.WHITE) 0 Color.BLACK
      = Except.ok (set_stone (set_stone empty_board 0 Color.WHITE) 0 Color.BLACK,
          BEvent.stoneSet Color.BLACK 0)
    ∧ set_stone (set_stone empty_board 0 Color.WHITE) 0 Color.BLACK 0 = some Color.BLACK
    ∧ set_stone empty_board 0 Color.WHITE 0 = some Color.WHITE
    ∧ remove_stone empty_board 1 = Except.ok (empty_board, none)
    ∧ empty_board 1 = none :=
  ⟨rfl, rfl, rfl, rfl, rfl⟩

/-- Claim C6 (amended): the board mutations validate only the position
    identifier. A position outside the 24 valid identifiers fails with the
    InvalidPositionError-class ValueError for both mutations; on a valid
    position, place always succeeds (overwriting any existing stone) and
    emits STONE_SET, and remove on an empty valid position silently succeeds
    without emitting an event. -/
theorem c6_board_validation_amended (b : BoardState) (p : Nat) (c : Color) :
    (24 ≤ p → place_stone b p c = Except.error BoardError.invalidPosition
        ∧ remove_stone b p = Except.error BoardError.invalidPosition)
    ∧ (p < 24 → place_stone b p c
        = Except.ok (set_stone b p c, BEvent.stoneSet c p) ∧ set_stone b p c p = some c)
    ∧ (p < 24 → b p = none → remove_stone b p = Except.ok (b, none)) := by
  refine ⟨fun h => ?_, fun h => ?_, fun h he => ?_⟩
  · have hn : ¬ p < 24 := by omega
    unfold place_stone remove_stone
    rw [if_neg hn, if_neg hn]
    exact ⟨rfl, rfl⟩
  · unfold place_stone
    rw [if_pos h]
    refine ⟨rfl, ?_⟩
    unfold set_stone
    simp
  · unfold remove_stone
    rw [if_pos h, he]

/-- Witness for the amended claim C6: position 30 is rejected, removing from
    the empty valid position 0 silently succeeds. -/
theorem c6_amended_witness :
    place_stone empty_board 30 Color.WHITE = Except.error BoardError.invalidPosition
    ∧ remove_stone empty_board 0 = Except.ok (empty_board, none) :=
  ⟨((c6_board_validation_amended empty_board 30 Color.WHITE).1 (by decide)).1,
   (c6_board_validation_amended empty_board 0 Color.WHITE).2.2 (by decide) rfl⟩

/-- Claim C9 counterexample: after placing WHITE at 0, BLACK at 1 and WHITE
    at 2, the line 0, 1, 2 holds a BLACK stone at position 1, so no mill has
    formed: no removal is pending, the next action is SET rather than
    REMOVE, it is not the turn of WHITE, and position 1 may not be
    removed. -/
theorem c9_counterexample :
    (run_ops spec_scenario_trace).rules.waitingForStoneRemovalCol = none
    ∧ get_next_action (run_ops spec_scenario_trace).rules = NextAction.SET
    ∧ NextAction.SET ≠ NextAction.REMOVE
    ∧ is_turn_col (run_ops spec_scenario_trace).rules Color.WHITE = false
    ∧ may_remove (run_ops spec_scenario_trace).rules
        (run_ops spec_scenario_trace).board 1 = false := by
  decide

/-- Claim C9 (amended): in a scenario that actually completes the line
    0, 1, 2 for WHITE (WHITE places 0, 1, 2 while BLACK places 3 and 5), a
    mill forms for WHITE: the pending victim is BLACK, the next action is
    REMOVE, it is the turn of WHITE, the BLACK stone at 3 may be removed and
    the WHITE stone at 0 may not. -/
theorem c9_scenario_amended :
    (run_ops mill_trace).rules.waitingForStoneRemovalCol = some Color.BLACK
    ∧ get_next_action (run_ops mill_trace).rules = NextAction.REMOVE
    ∧ is_turn_col (run_ops mill_trace).rules Color.WHITE = true
    ∧ may_remove (run_ops mill_trace).rules (run_ops mill_trace).board 3 = true
    ∧ may_remove (run_ops mill_trace).rules (run_ops mill_trace).board 0 = false := by
  decide

/-- Two booleans are equal exactly when they are equivalent as truth
    values. -/
theorem bool_eq_iff (x y : Bool) : x = y ↔ ((x = true) ↔ (y = true)) := by
  cases x <;> cases y <;> simp

set_option maxHeartbeats 3200000 in
/-- Core of claim C5: at every valid position carrying a stone of the given
    color, the neighbor-walking mill check of the source agrees with the
    line-based reference definition, for every board configuration. -/
theorem check_mill_eq_line_mill (b : BoardState) (c : Color) (p : Nat)
    (hp : p < 24) (hpc : get_stone_col b p = some c) :
    check_mill b c p = line_mill_spec b c p := by
  rw [bool_eq_iff]
  interval_cases p <;>
    (simp [get_stone_col] at hpc;
     simp [check_mill, check_horizontal_mill, check_vertical_mill, positions,
       line_mill_spec, millLinesSpec, get_stone_col];
     try tauto)

/-- Claim C5: after an accepted placement by a color on a valid position
    (so the stone is on the board and no removal was pending), the engine
    records the opposing color as pending-removal victim exactly when some
    mill line containing the position is fully occupied by that color; the
    neighbor-walking implementation of mill detection is equivalent to the
    line-based reference definition for every board configuration. -/
theorem c5_mill_refinement (rs : RulesState) (b : BoardState) (c : Color) (p : Nat)
    (hp : p < 24) (hw : rs.waitingForStoneRemovalCol = none)
    (hpc : get_stone_col b p = some c) :
    ((board_event_handler rs b (BEvent.stoneSet c p)).waitingForStoneRemovalCol
        = some (oppositeColor c) ↔ line_mill_spec b c p = true)
    ∧ check_mill b c p = line_mill_spec b c p := by
  have hcore := check_mill_eq_line_mill b c p hp hpc
  refine ⟨?_, hcore⟩
  have hwaiting : (board_event_handler rs b (BEvent.stoneSet c p)).waitingForStoneRemovalCol
      = if check_mill b c p then some (oppositeColor c)
        else rs.waitingForStoneRemovalCol := by
    simp only [board_event_handler]
    split_ifs <;> rfl
  rw [hwaiting, hw, ← hcore]
  cases hm : check_mill b c p
  · simp [hm]
  · simp [hm]

/-- Board holding WHITE stones on the full line 0, 1, 2, used as witness
    input. -/
def white_row_board : BoardState :=
  fun p => if p < 3 then some Color.WHITE else none

/-- Witness for claim C5: on the board with WHITE on 0, 1 and 2, both mill
    detectors agree at position 1. -/
theorem c5_witness :
    check_mill white_row_board Color.WHITE 1
      = line_mill_spec white_row_board Color.WHITE 1 :=
  (c5_mill_refinement initRules white_row_board Color.WHITE 1
    (by decide) rfl (by decide)).2

end Muehle
